import Mathlib

/-!
Verification of the Vectorpenter retrieval-and-context-assembly pipeline.

Shallow embedding of the Python sources:
  * `search/hybrid.py`        — `hybrid_merge` (round-robin merge with dedup)
  * `rag/retriever.py`        — `vector_search`
  * `rag/context_builder.py`  — `hydrate_matches`, `build_context`,
                                `build_external_snippets`, `build_combined_context`,
                                `expand_with_neighbors`
  * `rag/reranker.py`         — `rerank`, `is_rerank_available`
  * `gcp/search.py`           — `is_google_search_available`, `should_use_grounding`,
                                `google_ground`
  * `core/config.py`          — the `Settings` dataclass
  * `apps/cli.py`             — `cmd_ask`
  * `apps/api.py`             — `query`

Python dictionaries that accrete fields along the pipeline are embedded as a
record with optional fields; Python runtime exceptions (TypeError for a bad
keyword argument, AttributeError for a missing dataclass field, NameError for
an undefined global) are embedded with `Except PyErr`.  External network
services (embedding, vector DB, keyword index, Google search, the LLM) are
modelled by their responses, passed in as explicit arguments.
-/

namespace Vectorpenter

/-- Python runtime exceptions that the embedded code can raise. -/
inductive PyErr where
  /-- `TypeError`, e.g. calling a function with an unexpected keyword argument. -/
  | typeError (msg : String)
  /-- `AttributeError: 'Settings' object has no attribute '<attr>'`. -/
  | attributeError (attr : String)
  /-- `NameError: name '<name>' is not defined`. -/
  | nameError (name : String)
deriving DecidableEq, Repr

/-- A retrieval Match / hydrated Snippet: the pipeline's dict-shaped record.
`vector_search` creates `{id, score, text: None, meta}`; `hydrate_matches` fills
`text`/`doc`/`seq`; `hybrid_merge` stamps `source`; `expand_with_neighbors`
synthesizes records carrying `neighbor_of`.  Optional fields model dict keys
whose value may be absent or `None`. -/
structure Snippet where
  id : String
  score : ℚ := 0
  text : Option String := none
  doc : Option String := none
  seq : Option Int := none
  source : Option String := none
  neighbor_of : Option String := none
  rerank_score : Option ℚ := none
deriving DecidableEq, Repr

/-- A row of the `chunks` table in the SQLite store
(`id, document_id, seq, text`). -/
structure Chunk where
  id : String
  document_id : String
  seq : Int
  text : String
deriving DecidableEq, Repr

/-- A Google programmable-search hit (`title`, `link`, `snippet`), as built by
`google_ground`, which always sets all three keys. -/
structure ExternalResult where
  title : String
  snippet : String
  link : String
deriving DecidableEq, Repr

/-- One match of the vector database's response: id plus similarity score. -/
structure VecMatch where
  id : String
  score : ℚ
deriving DecidableEq, Repr

/-! ### `search/hybrid.py` — `hybrid_merge` -/

/-- One pull of the round-robin loop in `hybrid_merge`: the next item of a
stream is appended (tagged with its source) unless its id was already seen. -/
def pullStep (m : Snippet) (src : String) (seen : List String)
    (merged : List Snippet) : List String × List Snippet :=
  if m.id ∈ seen then (seen, merged)
  else (m.id :: seen, merged ++ [{ m with source := some src }])

/-- The `while` loop of `hybrid_merge`.  The loop runs while
`len(merged) < k` and at least one stream is not exhausted; each iteration
pulls one item from the keyword stream (if not exhausted) and then, if the
target is still not reached, one item from the vector stream.  Every
iteration consumes at least one element, so fuel
`keyword_results.length + vector_results.length` suffices; the fuel argument
only makes this recursion structural. -/
def hybridMergeLoop (k : Int) :
    Nat → List Snippet → List Snippet → List String → List Snippet → List Snippet
  | 0, _, _, _, merged => merged
  | fuel + 1, kw, vec, seen, merged =>
    if (merged.length : Int) < k ∧ (kw ≠ [] ∨ vec ≠ []) then
      match kw, vec with
      | [], [] => merged
      | khd :: ktl, [] =>
        let (seen1, merged1) := pullStep khd "keyword" seen merged
        hybridMergeLoop k fuel ktl [] seen1 merged1
      | [], vhd :: vtl =>
        let (seen1, merged1) := pullStep vhd "vector" seen merged
        hybridMergeLoop k fuel [] vtl seen1 merged1
      | khd :: ktl, vhd :: vtl =>
        let (seen1, merged1) := pullStep khd "keyword" seen merged
        if (merged1.length : Int) < k then
          let (seen2, merged2) := pullStep vhd "vector" seen1 merged1
          hybridMergeLoop k fuel ktl vtl seen2 merged2
        else
          hybridMergeLoop k fuel ktl (vhd :: vtl) seen1 merged1
    else merged

/-- `hybrid_merge(keyword_results, vector_results, k)`:
round-robin merge with deduplication, returning `merged[:k]`. -/
def hybrid_merge (keyword_results vector_results : List Snippet)
    (k : Int) : List Snippet :=
  (hybridMergeLoop k (keyword_results.length + vector_results.length)
    keyword_results vector_results [] []).take k.toNat

/-- The identifier finset of the not-yet-pulled part of both streams. -/
def pendingIds (kw vec : List Snippet) : Finset String :=
  (kw.map Snippet.id).toFinset ∪ (vec.map Snippet.id).toFinset

/-! ### `rag/context_builder.py` — hydration and context assembly -/

/-- Rendering of a Python value in an f-string: `None` renders as `"None"`. -/
def pyStrOfOptStr : Option String → String
  | none => "None"
  | some s => s

/-- Rendering of an optional integer in an f-string. -/
def pyStrOfOptInt : Option Int → String
  | none => "None"
  | some n => toString n

/-- `"".join(buf)` — concatenation of the rendered chunks. -/
def strJoin : List String → String
  | [] => ""
  | s :: rest => s ++ strJoin rest

/-- Total length of a list of rendered chunks. -/
def sumLen (l : List String) : Nat := (l.map String.length).sum

/-- `hydrate_matches`: resolves each match id against the `chunks` table and
attaches `text`/`doc`/`seq`; ids not found are passed through with empty text
and `None` positional fields.  Chunk ids are the table's primary key, so the
first matching row is the row. -/
def hydrate_matches (db : List Chunk) (ms : List Snippet) : List Snippet :=
  if ms = [] then []
  else
    ms.map fun m =>
      match db.find? (fun c => c.id = m.id) with
      | some c =>
        { m with text := some c.text, doc := some c.document_id, seq := some c.seq }
      | none => { m with text := some "", doc := none, seq := none }

/-- The rendered block of the `i`-th (1-based) local snippet:
`f"[#{i}] {s['doc']}::{s['seq']}\n{s['text']}\n\n"`.  After hydration
`s['text']` is always a string; `.getD ""` reads that string. -/
def snippetBlock (i : Nat) (s : Snippet) : String :=
  "[#" ++ toString i ++ "] " ++ pyStrOfOptStr s.doc ++ "::" ++
    pyStrOfOptInt s.seq ++ "\n" ++ s.text.getD "" ++ "\n\n"

/-- The rendered blocks of a snippet list, numbering from `i`. -/
def blocksFrom (i : Nat) : List Snippet → List String
  | [] => []
  | s :: rest => snippetBlock i s :: blocksFrom (i + 1) rest

/-- The rendered blocks of a snippet list, 1-based as in `build_context`. -/
def localBlocks (snippets : List Snippet) : List String := blocksFrom 1 snippets

/-- The accumulation loop of `build_context`: append whole blocks while the
running total stays within `max_chars`, stopping (`break`) at the first block
that would exceed it. -/
def buildContextList (budget : Nat) (i total : Nat) : List Snippet → List String
  | [] => []
  | s :: rest =>
    let chunk := snippetBlock i s
    if total + chunk.length > budget then []
    else chunk :: buildContextList budget (i + 1) (total + chunk.length) rest

/-- `build_context(snippets, max_chars)`. -/
def build_context (snippets : List Snippet) (max_chars : Nat) : String :=
  strJoin (buildContextList max_chars 1 0 snippets)

/-- The rendered external blocks `f"[G#{i}] {title}\n{snippet}\n({link})\n\n"`,
numbering from `i`.  `google_ground` sets all three keys on every result, so
the `.get` defaults of `build_external_snippets` never fire. -/
def externalBlocks (i : Nat) : List ExternalResult → List String
  | [] => []
  | r :: rest =>
    ("[G#" ++ toString i ++ "] " ++ r.title ++ "\n" ++ r.snippet ++ "\n(" ++
      r.link ++ ")\n\n") :: externalBlocks (i + 1) rest

/-- `build_external_snippets(snips)`. -/
def build_external_snippets (snips : List ExternalResult) : String :=
  if snips = [] then ""
  else strJoin ("### External Web Context (Google)\n" :: externalBlocks 1 snips)

/-- The ellipsis marker appended by the truncation branch of
`build_combined_context`. -/
def truncation_marker : String := "...\n"

/-- `build_combined_context(local_snippets, external_snippets, max_chars)`.
The local call passes `max_chars * 0.8`; the Python float product, used only
in integer comparisons `total + len(chunk) > budget`, acts as its floor,
which equals `8 * max_chars / 10` for every representable magnitude (the
float `0.8` exceeds `4/5` by less than the rounding slack).  The truncation
branch computes the truncated text, appends it, and then calls
`logger.debug` — but `logger` is never imported at module level in
`context_builder.py`, so that branch raises `NameError`. -/
def build_combined_context (local_snippets : List Snippet)
    (external_snippets : List ExternalResult) (max_chars : Nat) :
    Except PyErr String :=
  let local_context := build_context local_snippets (8 * max_chars / 10)
  let external_context :=
    if external_snippets ≠ [] then build_external_snippets external_snippets
    else ""
  if external_context = "" then .ok local_context
  else
    let remaining_chars : Int := (max_chars : Int) - local_context.length
    if remaining_chars > 200 then
      if (external_context.length : Int) ≤ remaining_chars then
        .ok (local_context ++ "\n" ++ external_context)
      else .error (.nameError "logger")
    else .ok local_context

/-! ### `core/config.py` — the `Settings` dataclass -/

/-- The `Settings` dataclass of `core/config.py`, field for field.  The
default values mirror the `os.getenv` fallbacks; fields read from the
environment are quantified over in the theorems.  The dataclass defines no
`cohere_api_key`, `google_search_api_key`, `google_search_cx` or
`grounding_sim_threshold` field, although `rag/reranker.py` and
`gcp/search.py` read those attributes. -/
structure Settings where
  openai_api_key : Option String := none
  voyage_api_key : Option String := none
  pinecone_api_key : Option String := none
  pinecone_index : String := "vectorpenter"
  pinecone_cloud : String := "gcp"
  pinecone_region : String := "us-central1"
  pinecone_namespace : String := "default"
  db_url : String := "sqlite:///./data/vectorpenter.db"
  typesense_api_key : Option String := none
  typesense_host : String := "localhost"
  typesense_port : Int := 8108
  typesense_protocol : String := "http"
  typesense_collection : String := "vectorpenter_chunks"
  google_application_credentials : Option String := none
  gcp_project_id : Option String := none
  gcp_location : String := "us"
  use_google_doc_ai : Bool := false
  doc_ai_processor_id : Option String := none
  use_vertex_chat : Bool := false
  vertex_chat_model : String := "gemini-1.5-pro"
deriving DecidableEq, Repr

/-- Python truthiness of an optional string: `None` and `""` are falsy. -/
def pyTruthyOptStr : Option String → Bool
  | none => false
  | some s => s ≠ ""

/-- Attribute access `getattr(settings, name)` for the optional-string
credential fields.  The dataclass has exactly the fields listed in
`Settings`; reading any other attribute name — in particular
`cohere_api_key`, `google_search_api_key` and `google_search_cx` — raises
`AttributeError`.  (The string/int/bool configuration fields are never read
through this accessor by the embedded code.) -/
def Settings.attrOptStr (s : Settings) (name : String) :
    Except PyErr (Option String) :=
  match name with
  | "openai_api_key" => .ok s.openai_api_key
  | "voyage_api_key" => .ok s.voyage_api_key
  | "pinecone_api_key" => .ok s.pinecone_api_key
  | "typesense_api_key" => .ok s.typesense_api_key
  | "google_application_credentials" => .ok s.google_application_credentials
  | "gcp_project_id" => .ok s.gcp_project_id
  | "doc_ai_processor_id" => .ok s.doc_ai_processor_id
  | n => .error (.attributeError n)

/-- Attribute access for a float-valued settings attribute.  `Settings`
defines no float-valued field at all — in particular
`grounding_sim_threshold` is absent — so every such access raises
`AttributeError`. -/
def Settings.attrFloat (_s : Settings) (name : String) : Except PyErr ℚ :=
  .error (.attributeError name)

/-! ### `gcp/search.py` — grounding -/

/-- `is_google_search_available()`:
`bool(settings.google_search_api_key and settings.google_search_cx)`,
reading the attributes left to right with Python short-circuiting. -/
def is_google_search_available (s : Settings) : Except PyErr Bool := do
  let key ← s.attrOptStr "google_search_api_key"
  if pyTruthyOptStr key then do
    let cx ← s.attrOptStr "google_search_cx"
    return pyTruthyOptStr cx
  else return false

/-- `should_use_grounding(best_score, num_results, k)`: false when Google
search is unavailable, else weak similarity (`best_score` below the
configured threshold) or insufficient results (`num_results < k // 2`). -/
def should_use_grounding (s : Settings) (best_score : ℚ)
    (num_results k : Int) : Except PyErr Bool := do
  let avail ← is_google_search_available s
  if avail then do
    let threshold ← s.attrFloat "grounding_sim_threshold"
    let weak_similarity : Bool := best_score < threshold
    let insufficient_results : Bool := num_results < Int.fdiv k 2
    return (weak_similarity || insufficient_results)
  else return false

/-- `google_ground(query, max_results)`: the very first step reads
`settings.google_search_api_key`, which raises `AttributeError` (the field
is missing from `Settings`); the blanket `except Exception` swallows it and
returns `[]`.  Hence every call returns the empty list, whatever the
network would have answered (`_items`) and whatever `_max_results` is. -/
def google_ground (_s : Settings) (_items : List ExternalResult)
    (_max_results : Int) : List ExternalResult :=
  []

/-! ### `rag/reranker.py` -/

/-- `rerank(question, snippets)`: empty input is returned as is; with a
truthy Voyage key the Voyage path runs (the external call is abstracted by
`voyageRerank`; its internal failures also return a snippet list); otherwise
the code reads `settings.cohere_api_key`, an attribute `Settings` does not
define. -/
def rerank (s : Settings)
    (voyageRerank cohereRerank : String → List Snippet → List Snippet)
    (question : String) (snippets : List Snippet) :
    Except PyErr (List Snippet) :=
  if snippets = [] then .ok snippets
  else do
    let vk ← s.attrOptStr "voyage_api_key"
    if pyTruthyOptStr vk then return voyageRerank question snippets
    else do
      let ck ← s.attrOptStr "cohere_api_key"
      if pyTruthyOptStr ck then return cohereRerank question snippets
      else return snippets

/-- `is_rerank_available()`:
`bool(settings.voyage_api_key or settings.cohere_api_key)` with Python
short-circuiting, so the missing `cohere_api_key` attribute is only read
when the Voyage key is falsy. -/
def is_rerank_available (s : Settings) : Except PyErr Bool := do
  let vk ← s.attrOptStr "voyage_api_key"
  if pyTruthyOptStr vk then return true
  else do
    let ck ← s.attrOptStr "cohere_api_key"
    return pyTruthyOptStr ck

/-! ### `rag/retriever.py` -/

/-- `vector_search(query_vec, top_k)`: maps the vector-database response to
match dicts `{id, score, text: None, meta}` (the opaque metadata blob is
never read downstream and is not modelled) and tracks the best positive
score seen, starting from `0.0`. -/
def vector_search (resp : List VecMatch) : List Snippet × ℚ :=
  (resp.map fun m => ({ id := m.id, score := m.score } : Snippet),
    resp.foldl (fun best m => if m.score > best then m.score else best) 0)

/-! ### `rag/context_builder.py` — `expand_with_neighbors` -/

/-- The neighbour sequence numbers requested for a snippet at sequence
`base`: `base - 1 .. base - left` (skipping negatives) then
`base + 1 .. base + right`. -/
def neighborSeqs (left right : Nat) (base : Int) : List Int :=
  ((List.range left).filterMap fun i =>
    if base - (i + 1 : Nat) ≥ 0 then some (base - (i + 1 : Nat)) else none) ++
  (List.range right).map fun i => base + (i + 1 : Nat)

/-- The synthesized neighbour snippet: inherits the originating score and is
tagged with the triggering identifier. -/
def mkNeighbor (s : Snippet) (c : Chunk) : Snippet :=
  { id := c.id, doc := some c.document_id, seq := some c.seq,
    text := some c.text, score := s.score, neighbor_of := some s.id }

/-- Appending the fetched neighbour rows, skipping identifiers already
seen. -/
def addNeighbors (s : Snippet) :
    List Chunk → List Snippet → List String → List Snippet × List String
  | [], out, seen => (out, seen)
  | c :: rest, out, seen =>
    if c.id ∈ seen then addNeighbors s rest out seen
    else addNeighbors s rest (out ++ [mkNeighbor s c]) (c.id :: seen)

/-- Stable insertion into a sorted list: the new element goes after all
elements it is `le`-greater-or-equal to. -/
def insertBy (le : α → α → Bool) (x : α) : List α → List α
  | [] => [x]
  | y :: ys => if le y x then y :: insertBy le x ys else x :: y :: ys

/-- Stable sort (insertion sort).  Python `list.sort` / SQL `ORDER BY` are
stable; for a total preorder comparator any stable sort computes the same
list. -/
def sortBy (le : α → α → Bool) (l : List α) : List α :=
  l.foldl (fun acc x => insertBy le x acc) []

/-- The main accumulation loop of `expand_with_neighbors`: for each pending
snippet not yet seen, append it, then fetch and append the neighbour rows of
its document (the SQL query filters by document and the requested sequence
numbers and orders by sequence).  A falsy `doc` (None or empty string), a
`None` sequence, or an empty request list skips the fetch. -/
def expandFetch (db : List Chunk) (left right : Nat) :
    List Snippet → List Snippet → List String → List Snippet
  | [], out, _ => out
  | s :: rest, out, seen =>
    if s.id ∈ seen then expandFetch db left right rest out seen
    else
      let out1 := out ++ [s]
      let seen1 := s.id :: seen
      match s.doc, s.seq with
      | some d, some base =>
        if d = "" then expandFetch db left right rest out1 seen1
        else
          let seqs := neighborSeqs left right base
          if seqs = [] then expandFetch db left right rest out1 seen1
          else
            let rows := sortBy (fun a b => decide (a.seq ≤ b.seq))
              (db.filter fun c => c.document_id = d ∧ c.seq ∈ seqs)
            expandFetch db left right rest
              (addNeighbors s rows out1 seen1).1
              (addNeighbors s rows out1 seen1).2
      | _, _ => expandFetch db left right rest out1 seen1

/-- Sequence part of the Python sort key `(x.get("doc", ""), x.get("seq", 0))`
when the doc parts compare equal. -/
def seqLE (a b : Snippet) : Bool :=
  match a.seq, b.seq with
  | some i, some j => decide (i ≤ j)
  | none, none => true
  | none, some _ => true
  | some _, none => false

/-- The Python sort key comparison.  The mixed None-versus-value orderings
are arbitrary: in Python such a comparison raises `TypeError`, which
`expandFaults` accounts for. -/
def snipKeyLE (a b : Snippet) : Bool :=
  match a.doc, b.doc with
  | some x, some y => if x = y then seqLE a b else decide (x < y)
  | none, none => seqLE a b
  | none, some _ => true
  | some _, none => false

/-- Inputs on which the sort-and-trim phase of `expand_with_neighbors`
raises inside the `try`: sort keys mixing `None` with a string doc or with
an integer sequence raise `TypeError` in `list.sort`, and a `None` text
raises `TypeError` in `len()` during the trim.  (Mixed sequence classes
fault only when the doc parts compare equal, so this predicate is a slight
over-approximation — on either side of it the function returns a sublist of
what was accumulated or the original input, which is all the theorems
use.) -/
def expandFaults (out : List Snippet) : Bool :=
  ((out.any fun s => s.doc.isNone) && (out.any fun s => s.doc.isSome)) ||
  ((out.any fun s => s.seq.isNone) && (out.any fun s => s.seq.isSome)) ||
  (out.any fun s => s.text.isNone)

/-- The greedy character-budget trim at the end of `expand_with_neighbors`:
keep whole snippets while the cumulative text length stays within
`max_chars`, stopping at the first snippet that would exceed it. -/
def trimBudget (budget : Nat) (total : Nat) : List Snippet → List Snippet
  | [] => []
  | s :: rest =>
    let t := (s.text.getD "").length
    if total + t > budget then []
    else s :: trimBudget budget (total + t) rest

/-- The neighbour-window predicate of the fetch in `expand_with_neighbors`:
chunk `c` lies in the `(left, right)` window of snippet `s` within the same
document.  Mirrors the fetch condition: a truthy document id, a present
sequence number, and a sequence among the requested neighbour sequences. -/
def inWindowB (left right : Nat) (s : Snippet) (c : Chunk) : Bool :=
  match s.doc, s.seq with
  | some d, some base =>
    d ≠ "" && c.document_id = d && decide (c.seq ∈ neighborSeqs left right base)
  | _, _ => false

/-- `expand_with_neighbors(snippets, left, right, max_chars)`: accumulate
originals and neighbours, sort by (doc, seq), trim by character budget; any
exception inside the `try` (modelled by `expandFaults`) falls back to
returning the original snippets unchanged. -/
def expand_with_neighbors (db : List Chunk) (snippets : List Snippet)
    (left right : Nat) (max_chars : Nat) : List Snippet :=
  if snippets = [] then snippets
  else
    let out := expandFetch db left right snippets [] []
    if expandFaults out then snippets
    else trimBudget max_chars 0 (sortBy snipKeyLE out)

/-! ### Query surfaces: `apps/cli.py` `cmd_ask` and `apps/api.py` `query` -/

/-- Python `str.strip()` for the ASCII whitespace occurring in rendered
packs. -/
def pyIsSpace (c : Char) : Bool :=
  c = ' ' || c = '\t' || c = '\n' || c = '\r' || c = '\x0b' || c = '\x0c'

/-- Python `s.strip()`. -/
def pyStrip (s : String) : String :=
  String.mk (((s.data.dropWhile pyIsSpace).reverse.dropWhile pyIsSpace).reverse)

/-- Modelled from the spec: `core.config.is_grounding_enabled` is referenced
by `apps/cli.py` and `apps/api.py` and patched in `tests/test_workflows.py`
but is absent from `src/core/config.py`; per the spec (sections 4.7 and 8)
grounding is a configuration toggle evaluated once per query.  It is
modelled as reading an abstract configuration flag. -/
def is_grounding_enabled (flag : Bool) : Bool := flag

/-- Modelled from the spec: `core.config.max_google_results` is referenced
by the query surfaces but absent from `src/core/config.py`; per the spec it
is the configured maximum number of external results (at most 10 per call).
Modelled as reading an abstract configured value. -/
def max_google_results (n : Int) : Int := n

/-- The external collaborators and configuration of one query invocation.
Everything the pipeline reaches over the network or the environment is an
explicit field. -/
structure Backends where
  /-- The `Settings` object constructed by `core/config.py`. -/
  settings : Settings
  /-- The `chunks` table of the local SQLite store. -/
  db : List Chunk
  /-- `search.typesense_client.is_available()`. -/
  typesenseAvailable : Bool
  /-- The vector-database response for a given `top_k`. -/
  vectorResp : Int → List VecMatch
  /-- The abstracted Voyage rerank call. -/
  voyageRerank : String → List Snippet → List Snippet
  /-- The abstracted Cohere rerank call. -/
  cohereRerank : String → List Snippet → List Snippet
  /-- Modelled from the spec: the configuration flag read by the missing
  `core.config.is_grounding_enabled`. -/
  groundingEnabled : Bool
  /-- Modelled from the spec: the configured value read by the missing
  `core.config.max_google_results`. -/
  maxGoogleResults : Int
  /-- The items of the Google custom-search response. -/
  googleItems : List ExternalResult

/-- How a query surface produced its answer string: by the generation call
on a pack, by one of the fixed no-context messages, or by the API
catch-all error response. -/
inductive AnswerVal where
  | generated (question pack : String)
  | noContextCli
  | noContextApi
  | errorResp (e : PyErr)
deriving DecidableEq, Repr

/-- The observable outcome of `cmd_ask`: the search-type label, the built
context pack, and how the answer was produced. -/
structure CliResult where
  search_type : String
  pack : String
  ans : AnswerVal
deriving DecidableEq, Repr

/-- The optional-rerank region of `cmd_ask` (`apps/cli.py` lines 54-58):
the boolean parameter `rerank` shadows the imported `rerank` function, so a
truthy availability check on a non-empty snippet list leads to calling a
bool — `TypeError`.  The availability check itself may raise (missing
`cohere_api_key`). -/
def cliRerankStep (B : Backends) (rerankFlag : Bool)
    (snippets : List Snippet) : Except PyErr (List Snippet) :=
  if rerankFlag then
    is_rerank_available B.settings >>= fun avail =>
      if avail ∧ snippets ≠ [] then
        .error (.typeError "bool object is not callable")
      else pure snippets
  else pure snippets

/-- The grounding region of both query surfaces: when grounding is enabled
the decider runs (outside any `try`, so its exception propagates) and, when
it asks for grounding, `google_ground` is called inside a `try` whose
failures leave the external list empty (`google_ground` itself never
raises). -/
def groundingStep (B : Backends) (best_score : ℚ)
    (num_results k : Int) : Except PyErr (List ExternalResult) :=
  if is_grounding_enabled B.groundingEnabled then
    should_use_grounding B.settings best_score num_results k >>= fun ground =>
      if ground then
        pure (google_ground B.settings B.googleItems
          (max_google_results B.maxGoogleResults))
      else pure []
  else pure []

/-- The answer region of `cmd_ask`: a non-whitespace pack goes to the
generation call (`answer(q, pack)`); an empty one yields the fixed
no-context message without invoking generation. -/
def cliFinish (q st pack : String) : CliResult :=
  if pyStrip pack ≠ "" then
    { search_type := st, pack := pack, ans := .generated q pack }
  else { search_type := st, pack := pack, ans := .noContextCli }

/-- `cmd_ask(q, k, hybrid, rerank)` of `apps/cli.py` (the missing
config imports are spec-modelled, see `is_grounding_enabled`).  The hybrid
branch calls `hybrid_search(q, vec, top_k=k)`, but `hybrid_search` has
parameters `(query, query_vec, k)` and no `top_k`, so the call raises
`TypeError`.  In the rerank branch the boolean parameter `rerank` shadows
the imported `rerank` function, so a truthy availability check leads to
calling a bool.  Exceptions propagate to the caller. -/
def cmd_ask (B : Backends) (q : String) (k : Int)
    (hybrid rerankFlag : Bool) : Except PyErr CliResult :=
  if hybrid ∧ B.typesenseAvailable then
    .error (.typeError "hybrid_search got an unexpected keyword argument top_k")
  else
    let search_k := if rerankFlag then k * 2 else k
    let vres := vector_search (B.vectorResp search_k)
    let snippets := hydrate_matches B.db vres.1
    cliRerankStep B rerankFlag snippets >>= fun snippets =>
    groundingStep B vres.2 (snippets.length : Int) k >>= fun external =>
    build_combined_context snippets external 12000 >>= fun pack =>
    pure (cliFinish q
      ("vector" ++ (if external ≠ [] then "+grounding" else "")) pack)

/-- The `QueryResponse` model of `apps/api.py`. -/
structure QueryResponse where
  answer : AnswerVal
  k : Int
  hybrid : Bool
  rerank : Bool
  search_type : String
  sources_count : Int
deriving DecidableEq, Repr

/-- A successful run of the `try` body of the API `query` endpoint,
together with the context pack it built. -/
structure ApiSuccess where
  resp : QueryResponse
  pack : String
deriving DecidableEq, Repr

/-- The optional-rerank region of the API `query` (`apps/api.py` lines
150-154): the module-level `rerank` function is called (no shadowing), the
result trimmed to `k`, and the search-type label extended. -/
def apiRerankStep (B : Backends) (q : String) (k : Int) (rerankFlag : Bool)
    (hydrated : List Snippet) : Except PyErr (List Snippet × String) :=
  if rerankFlag then
    is_rerank_available B.settings >>= fun avail =>
      if avail ∧ hydrated ≠ [] then
        rerank B.settings B.voyageRerank B.cohereRerank q hydrated >>=
          fun reranked => pure (reranked.take k.toNat, "vector+rerank")
      else pure (hydrated, "vector")
  else pure (hydrated, "vector")

/-- The answer region of the API `query`: builds the `QueryResponse` (fixed
no-context message on an empty pack, generation otherwise) and reports the
pack. -/
def apiFinish (q : String) (k : Int) (hybrid rerankFlag : Bool)
    (st1 : String) (snippets : List Snippet)
    (external : List ExternalResult) (pack : String) : ApiSuccess :=
  { resp :=
      { answer :=
          if pyStrip pack ≠ "" then AnswerVal.generated q pack
          else AnswerVal.noContextApi,
        k := k, hybrid := hybrid, rerank := rerankFlag,
        search_type := st1 ++ (if external ≠ [] then "+grounding" else ""),
        sources_count := (snippets.length : Int) + external.length },
    pack := pack }

/-- The `try` body of `query(request)` in `apps/api.py`: like `cmd_ask` but
with the module-level `rerank` function (no shadowing), a trim to `k`, and a
late-windowing `expand_with_neighbors(snippets, 1, 1, 12000)` step. -/
def queryInner (B : Backends) (q : String) (k : Int)
    (hybrid rerankFlag : Bool) : Except PyErr ApiSuccess :=
  if hybrid ∧ B.typesenseAvailable then
    .error (.typeError "hybrid_search got an unexpected keyword argument top_k")
  else
    let search_k := if rerankFlag then k * 2 else k
    let vres := vector_search (B.vectorResp search_k)
    let hydrated := hydrate_matches B.db vres.1
    apiRerankStep B q k rerankFlag hydrated >>= fun rr =>
    let snippets := expand_with_neighbors B.db rr.1 1 1 12000
    groundingStep B vres.2 (snippets.length : Int) k >>= fun external =>
    build_combined_context snippets external 12000 >>= fun pack =>
    pure (apiFinish q k hybrid rerankFlag rr.2 snippets external pack)

/-- `query(request)` of `apps/api.py`: the catch-all `except` converts any
exception into an apology answer with `search_type` `"error"` and zero
sources. -/
def query (B : Backends) (q : String) (k : Int)
    (hybrid rerankFlag : Bool) : QueryResponse :=
  match queryInner B q k hybrid rerankFlag with
  | .ok r => r.resp
  | .error e =>
    { answer := .errorResp e, k := k, hybrid := hybrid, rerank := rerankFlag,
      search_type := "error", sources_count := 0 }

/-- A concrete backend configuration (default settings, empty index, no
grounding) used to instantiate hypothesis-bearing theorems at closed
inputs. -/
def witnessBackends : Backends where
  settings := {}
  db := []
  typesenseAvailable := false
  vectorResp := fun _ => []
  voyageRerank := fun _ l => l
  cohereRerank := fun _ l => l
  groundingEnabled := false
  maxGoogleResults := 3
  googleItems := []

lemma strJoin_length (l : List String) : (strJoin l).length = sumLen l := by
  induction l with
  | nil => rfl
  | cons s rest ih => simp [strJoin, sumLen, String.length_append] at *; omega

/-- Cardinality bookkeeping for one deduplicating pull: moving a fresh
identifier `a` from the pending pool into `seen` trades one unit of the
pool-minus-seen cardinality for one emitted item. -/
lemma card_insert_sdiff (a : String) (S T : Finset String) (ha : a ∉ T) :
    (insert a S \ T).card = 1 + (S \ insert a T).card := by
  have h1 : insert a S \ T = insert a (S \ insert a T) := by
    ext x
    simp only [Finset.mem_sdiff, Finset.mem_insert]
    constructor
    · rintro ⟨hx | hx, hxT⟩
      · exact Or.inl hx
      · by_cases hxa : x = a
        · exact Or.inl hxa
        · exact Or.inr ⟨hx, fun h => h.elim hxa hxT⟩
    · rintro (hx | ⟨hxS, hx⟩)
      · subst hx; exact ⟨Or.inl rfl, ha⟩
      · exact ⟨Or.inr hxS, fun hxT => hx (Or.inr hxT)⟩
  rw [h1, Finset.card_insert_of_not_mem (by simp), Nat.add_comm]

lemma pendingIds_cons_left (m : Snippet) (kw vec : List Snippet) :
    pendingIds (m :: kw) vec = insert m.id (pendingIds kw vec) := by
  simp [pendingIds, Finset.insert_union]

lemma pendingIds_cons_right (m : Snippet) (kw vec : List Snippet) :
    pendingIds kw (m :: vec) = insert m.id (pendingIds kw vec) := by
  simp [pendingIds, Finset.union_insert]

lemma pullStep_length_le (m : Snippet) (src : String) (seen : List String)
    (merged : List Snippet) :
    (pullStep m src seen merged).2.length ≤ merged.length + 1 ∧
      merged.length ≤ (pullStep m src seen merged).2.length := by
  unfold pullStep
  by_cases hm : m.id ∈ seen <;> simp [hm]

/-- Invariant of the `hybrid_merge` loop: identifiers of the emitted list stay
duplicate-free, and the final length is the requested `k` capped by what is
still reachable (already emitted plus fresh identifiers in the pools). -/
lemma hybridMergeLoop_spec (k : Int) :
    ∀ (fuel : Nat) (kw vec : List Snippet) (seen : List String)
      (merged : List Snippet),
      kw.length + vec.length ≤ fuel →
      (∀ x ∈ merged, x.id ∈ seen) →
      ((merged.map Snippet.id).Nodup) →
      merged.length ≤ k.toNat →
      ((hybridMergeLoop k fuel kw vec seen merged).map Snippet.id).Nodup ∧
        (hybridMergeLoop k fuel kw vec seen merged).length =
          min k.toNat
            (merged.length + (pendingIds kw vec \ seen.toFinset).card) := by
  intro fuel
  induction fuel with
  | zero =>
    intro kw vec seen merged hfuel hseen hnd hlen
    have hkw : kw = [] := by
      cases kw with
      | nil => rfl
      | cons a l => simp at hfuel
    have hvec : vec = [] := by
      cases vec with
      | nil => rfl
      | cons a l => subst hkw; simp at hfuel
    subst hkw; subst hvec
    refine ⟨hnd, ?_⟩
    simp [hybridMergeLoop, pendingIds, Nat.min_eq_right hlen]
  | succ fuel ih =>
    intro kw vec seen merged hfuel hseen hnd hlen
    rw [hybridMergeLoop.eq_def]
    simp only []
    by_cases hguard : (merged.length : Int) < k ∧ (kw ≠ [] ∨ vec ≠ [])
    · rw [if_pos hguard]
      have hg1 : (merged.length : Int) < k := hguard.1
      -- facts used to re-establish the invariant after a fresh emit
      have hlen1 : merged.length + 1 ≤ k.toNat := by omega
      -- a single deduplicating pull preserves all invariants and the measure
      have step :
          ∀ (m : Snippet) (src : String) (seen' : List String)
            (merged' : List Snippet) (rest : Finset String),
            (∀ x ∈ merged', x.id ∈ seen') →
            ((merged'.map Snippet.id).Nodup) →
            (∀ x ∈ (pullStep m src seen' merged').2,
                x.id ∈ (pullStep m src seen' merged').1) ∧
              (((pullStep m src seen' merged').2.map Snippet.id).Nodup) ∧
              (pullStep m src seen' merged').2.length +
                  (rest \ ((pullStep m src seen' merged').1).toFinset).card =
                merged'.length + (insert m.id rest \ seen'.toFinset).card ∧
              merged'.length ≤ (pullStep m src seen' merged').2.length := by
        intro m src seen' merged' rest hs hn
        unfold pullStep
        by_cases hm : m.id ∈ seen'
        · rw [if_pos hm]
          refine ⟨hs, hn, ?_, le_refl _⟩
          have : insert m.id rest \ seen'.toFinset = rest \ seen'.toFinset := by
            apply Finset.insert_sdiff_of_mem
            simpa using hm
          rw [this]
        · rw [if_neg hm]
          refine ⟨?_, ?_, ?_, by simp⟩
          · intro x hx
            rcases List.mem_append.1 hx with hx | hx
            · exact List.mem_cons_of_mem _ (hs x hx)
            · simp at hx; subst hx; exact List.mem_cons_self _ _
          · rw [List.map_append]
            refine List.Nodup.append hn (by simp) ?_
            intro a ha hb
            simp at hb
            subst hb
            simp at ha
            rcases ha with ⟨x, hx, hxa⟩
            exact hm (hxa ▸ hs x hx)
          · have hmr : m.id ∉ seen'.toFinset := by simpa using hm
            rw [card_insert_sdiff m.id rest seen'.toFinset hmr]
            have : (m.id :: seen').toFinset = insert m.id seen'.toFinset := by
              simp
            rw [this]
            simp
            omega
      match kw, vec with
      | [], [] =>
        exact absurd hguard (by simp)
      | khd :: ktl, [] =>
        obtain ⟨h1, h2, h3, h4⟩ :=
          step khd "keyword" seen merged (pendingIds ktl []) hseen hnd
        have hlen' : (pullStep khd "keyword" seen merged).2.length ≤ k.toNat := by
          have := pullStep_length_le khd "keyword" seen merged
          omega
        obtain ⟨ihnd, ihlen⟩ := ih ktl [] _ _ (by simp at hfuel ⊢; omega) h1 h2 hlen'
        refine ⟨ihnd, ?_⟩
        rw [ihlen, pendingIds_cons_left]
        omega
      | [], vhd :: vtl =>
        obtain ⟨h1, h2, h3, h4⟩ :=
          step vhd "vector" seen merged (pendingIds [] vtl) hseen hnd
        have hlen' : (pullStep vhd "vector" seen merged).2.length ≤ k.toNat := by
          have := pullStep_length_le vhd "vector" seen merged
          omega
        obtain ⟨ihnd, ihlen⟩ := ih [] vtl _ _ (by simp at hfuel ⊢; omega) h1 h2 hlen'
        refine ⟨ihnd, ?_⟩
        rw [ihlen, pendingIds_cons_right]
        omega
      | khd :: ktl, vhd :: vtl =>
        obtain ⟨h1, h2, h3, h4⟩ :=
          step khd "keyword" seen merged (pendingIds ktl (vhd :: vtl)) hseen hnd
        have hlen' : (pullStep khd "keyword" seen merged).2.length ≤ k.toNat := by
          have := pullStep_length_le khd "keyword" seen merged
          omega
        by_cases hmid : ((pullStep khd "keyword" seen merged).2.length : Int) < k
        · simp only []
          rw [if_pos hmid]
          obtain ⟨g1, g2, g3, g4⟩ :=
            step vhd "vector" (pullStep khd "keyword" seen merged).1
              (pullStep khd "keyword" seen merged).2 (pendingIds ktl vtl) h1 h2
          have hlen'' :
              (pullStep vhd "vector" (pullStep khd "keyword" seen merged).1
                (pullStep khd "keyword" seen merged).2).2.length ≤ k.toNat := by
            have := pullStep_length_le vhd "vector"
              (pullStep khd "keyword" seen merged).1
              (pullStep khd "keyword" seen merged).2
            omega
          obtain ⟨ihnd, ihlen⟩ :=
            ih ktl vtl _ _ (by simp at hfuel ⊢; omega) g1 g2 hlen''
          refine ⟨ihnd, ?_⟩
          rw [ihlen, pendingIds_cons_left, pendingIds_cons_right] at *
          omega
        · simp only []
          rw [if_neg hmid]
          obtain ⟨ihnd, ihlen⟩ :=
            ih ktl (vhd :: vtl) _ _ (by simp at hfuel ⊢; omega) h1 h2 hlen'
          refine ⟨ihnd, ?_⟩
          rw [ihlen, pendingIds_cons_left] at *
          omega
    · rw [if_neg hguard]
      refine ⟨hnd, ?_⟩
      rcases not_and_or.1 hguard with hg | hg
      · have : k.toNat ≤ merged.length := by omega
        have : merged.length = k.toNat := le_antisymm hlen this
        omega
      · have hkw : kw = [] := by
          by_contra h
          exact hg (Or.inl h)
        have hvec : vec = [] := by
          by_contra h
          exact hg (Or.inr h)
        subst hkw; subst hvec
        simp [pendingIds, Nat.min_eq_right hlen]

/-- C2: for every keyword Match list, vector Match list and `k ≥ 1`,
`hybrid_merge` returns a list with no duplicate chunk identifiers whose
length is `min k (number of distinct identifiers across both inputs)`;
in particular its length is at most `k`. -/
theorem hybrid_merge_nodup_and_length (kw vec : List Snippet) (k : Int)
    (hk : 1 ≤ k) :
    ((hybrid_merge kw vec k).map Snippet.id).Nodup ∧
      ((hybrid_merge kw vec k).length : Int) =
        min k (((kw ++ vec).map Snippet.id).dedup.length : Int) ∧
      ((hybrid_merge kw vec k).length : Int) ≤ k := by
  obtain ⟨hnd, hlen⟩ :=
    hybridMergeLoop_spec k (kw.length + vec.length) kw vec [] []
      (le_refl _) (by simp) (by simp) (by simp)
  have hD : (pendingIds kw vec).card = ((kw ++ vec).map Snippet.id).dedup.length := by
    have : pendingIds kw vec = ((kw ++ vec).map Snippet.id).toFinset := by
      simp [pendingIds]
    rw [this, List.card_toFinset]
  unfold hybrid_merge
  have htake :
      ((hybridMergeLoop k (kw.length + vec.length) kw vec [] []).take
        k.toNat).length =
      min k.toNat
        (hybridMergeLoop k (kw.length + vec.length) kw vec [] []).length :=
    List.length_take _ _
  simp only [List.toFinset_nil, Finset.sdiff_empty, List.length_nil,
    Nat.zero_add] at hlen
  rw [hD] at hlen
  have hlenNat :
      ((hybridMergeLoop k (kw.length + vec.length) kw vec [] []).take
        k.toNat).length =
      min k.toNat ((kw ++ vec).map Snippet.id).dedup.length := by
    rw [htake, hlen, ← Nat.min_assoc, Nat.min_self]
  refine ⟨?_, ?_, ?_⟩
  · rw [List.map_take]
    exact List.Nodup.sublist (List.take_sublist _ _) hnd
  · rw [hlenNat]; omega
  · rw [hlenNat]; omega

/-- Witness for C2 at a concrete input: keyword `[A]`, vector `[A, B]`,
`k = 2` yields the two distinct identifiers. -/
theorem hybrid_merge_nodup_and_length_witness :
    ((hybrid_merge [{ id := "A" }] [{ id := "A" }, { id := "B" }] 2).map
        Snippet.id).Nodup ∧
      ((hybrid_merge [{ id := "A" }] [{ id := "A" }, { id := "B" }] 2).length :
          Int) =
        min 2
          ((([{ id := "A" }] ++ [{ id := "A" }, { id := "B" }] :
              List Snippet).map Snippet.id).dedup.length : Int) ∧
      ((hybrid_merge [{ id := "A" }] [{ id := "A" }, { id := "B" }] 2).length :
          Int) ≤ 2 :=
  hybrid_merge_nodup_and_length [{ id := "A" }] [{ id := "A" }, { id := "B" }] 2
    (by norm_num)

/-- C3 counterexample: on keyword `[A, B, C]`, vector `[A, D, E]`, `k = 4`,
the code does NOT return the alternating sequence
`[A(keyword), D(vector), B(keyword), E(vector)]` claimed by the spec:
skipping the duplicate `A` still consumes the vector stream's turn. -/
theorem hybrid_merge_interleave_counterexample :
    ¬ (hybrid_merge [{ id := "A" }, { id := "B" }, { id := "C" }]
        [{ id := "A" }, { id := "D" }, { id := "E" }] 4 =
      [{ id := "A", source := some "keyword" },
       { id := "D", source := some "vector" },
       { id := "B", source := some "keyword" },
       { id := "E", source := some "vector" }]) := by
  decide

/-- C3 amended: on keyword `[A, B, C]`, vector `[A, D, E]`, `k = 4`,
`hybrid_merge` returns `[A(keyword), B(keyword), D(vector), C(keyword)]`:
in round 1 the duplicate `A` from the vector stream is skipped but its turn
is consumed, round 2 emits `B` then `D`, and `C` fills `k` in round 3 before
the vector stream is consulted again, so `E` is never emitted. -/
theorem hybrid_merge_interleave_actual :
    hybrid_merge [{ id := "A" }, { id := "B" }, { id := "C" }]
        [{ id := "A" }, { id := "D" }, { id := "E" }] 4 =
      [{ id := "A", source := some "keyword" },
       { id := "B", source := some "keyword" },
       { id := "D", source := some "vector" },
       { id := "C", source := some "keyword" }] := by
  decide

lemma except_bind_ok {α β ε : Type} (a : α) (f : α → Except ε β) :
    (Except.ok a : Except ε α) >>= f = f a := rfl

lemma except_bind_error {α β ε : Type} (e : ε) (f : α → Except ε β) :
    (Except.error e : Except ε α) >>= f = .error e := rfl

/-- The accumulation loop of `build_context` emits exactly a prefix of the
rendered blocks: the cumulative length of the kept prefix stays within the
budget, and if the loop stopped early, keeping one more block would exceed
it. -/
lemma buildContextList_spec (budget : Nat) :
    ∀ (l : List Snippet) (i total : Nat), total ≤ budget →
      ∃ n, n ≤ l.length ∧
        buildContextList budget i total l = (blocksFrom i l).take n ∧
        total + sumLen ((blocksFrom i l).take n) ≤ budget ∧
        (n < l.length → total + sumLen ((blocksFrom i l).take (n + 1)) > budget) := by
  intro l
  induction l with
  | nil =>
    intro i total htot
    exact ⟨0, by simp, by simp [buildContextList], by simpa [sumLen], by simp⟩
  | cons s rest ih =>
    intro i total htot
    by_cases hov : total + (snippetBlock i s).length > budget
    · refine ⟨0, by simp, ?_, ?_, ?_⟩
      · simp [buildContextList, hov]
      · simpa [sumLen] using htot
      · intro _
        simp [blocksFrom, sumLen]
        omega
    · obtain ⟨n, hn, heq, hle, hgt⟩ :=
        ih (i + 1) (total + (snippetBlock i s).length) (by omega)
      refine ⟨n + 1, by simp; omega, ?_, ?_, ?_⟩
      · simp [buildContextList, hov, blocksFrom, heq]
      · simp [blocksFrom, sumLen] at hle ⊢
        omega
      · intro hlt
        have := hgt (by simpa using hlt)
        simp [blocksFrom, sumLen] at this ⊢
        omega

/-- `build_context` renders a whole-block prefix of the numbered blocks,
greedily within the budget. -/
lemma build_context_spec (snippets : List Snippet) (b : Nat) :
    ∃ n, n ≤ snippets.length ∧
      build_context snippets b = strJoin ((localBlocks snippets).take n) ∧
      sumLen ((localBlocks snippets).take n) ≤ b ∧
      (n < snippets.length → sumLen ((localBlocks snippets).take (n + 1)) > b) := by
  obtain ⟨n, hn, heq, hle, hgt⟩ :=
    buildContextList_spec b snippets 1 0 (Nat.zero_le _)
  exact ⟨n, hn, by simp [build_context, heq, localBlocks],
    by simpa using hle, fun h => by simpa using hgt h⟩

/-- The local rendering never exceeds its budget. -/
lemma build_context_length_le (snippets : List Snippet) (b : Nat) :
    (build_context snippets b).length ≤ b := by
  obtain ⟨n, _, heq, hle, _⟩ := build_context_spec snippets b
  rw [heq, strJoin_length]
  omega

/-- C4: the Context Pack string returned by `build_combined_context` has
length at most `max_chars` plus the length of one truncation marker, and
`build_context` includes only whole blocks, stopping before the first block
that would exceed the local budget. -/
theorem context_assembler_budget :
    (∀ (local_snippets : List Snippet)
        (external_snippets : List ExternalResult) (max_chars : Nat)
        (s : String),
        build_combined_context local_snippets external_snippets max_chars =
          .ok s →
        s.length ≤ max_chars + truncation_marker.length) ∧
      ∀ (snippets : List Snippet) (b : Nat),
        ∃ n, n ≤ snippets.length ∧
          build_context snippets b = strJoin ((localBlocks snippets).take n) ∧
          sumLen ((localBlocks snippets).take n) ≤ b ∧
          (n < snippets.length →
            sumLen ((localBlocks snippets).take (n + 1)) > b) := by
  constructor
  · intro local_snippets external_snippets max_chars s h
    have hloc :
        (build_context local_snippets (8 * max_chars / 10)).length ≤
          max_chars := by
      have := build_context_length_le local_snippets (8 * max_chars / 10)
      omega
    have hmarker : truncation_marker.length = 4 := rfl
    have hnl : ("\n" : String).length = 1 := rfl
    unfold build_combined_context at h
    dsimp only at h
    by_cases hes : external_snippets ≠ []
    · rw [if_pos hes] at h
      by_cases hbe : build_external_snippets external_snippets = ""
      · rw [if_pos hbe] at h
        rw [Except.ok.injEq] at h
        subst h
        omega
      · rw [if_neg hbe] at h
        split at h
        · split at h
          · rename_i hfit
            rw [Except.ok.injEq] at h
            subst h
            rw [String.length_append, String.length_append]
            omega
          · exact Except.noConfusion h
        · rw [Except.ok.injEq] at h
          subst h
          omega
    · rw [if_neg hes, if_pos rfl] at h
      rw [Except.ok.injEq] at h
      subst h
      omega
  · exact build_context_spec

/-- Witness for C4 at a concrete input: the empty snippet and external lists
with `max_chars = 100` return the empty pack, within the bound. -/
theorem context_assembler_budget_witness :
    ("" : String).length ≤ 100 + truncation_marker.length :=
  context_assembler_budget.1 [] [] 100 "" rfl

set_option maxRecDepth 10000 in
/-- C8 (code bug): with no local snippets, one external result whose
rendering (441 characters) exceeds the whole remaining budget of 300
characters, `build_combined_context` enters its truncation branch and raises
`NameError` on the module-globally undefined `logger` instead of returning
the truncated external content. -/
theorem build_combined_context_truncation_namerror :
    build_combined_context []
      [{ title := "T", snippet := String.mk (List.replicate 400 'a'),
         link := "L" }] 300 = .error (.nameError "logger") := rfl

/-- C5 (code bug): `should_use_grounding` never returns a boolean: its
availability check reads `settings.google_search_api_key`, an attribute the
`Settings` dataclass does not define, so every call — for every settings
object, score, result count and `k` — raises `AttributeError` instead. -/
theorem should_use_grounding_raises (s : Settings) (best_score : ℚ)
    (num_results k : Int) :
    should_use_grounding s best_score num_results k =
      .error (.attributeError "google_search_api_key") := rfl

/-- C6 (code bug): with a falsy Voyage key and a non-empty snippet list,
`rerank` reads `settings.cohere_api_key`, an attribute the `Settings`
dataclass does not define, and raises `AttributeError` instead of returning
the input unchanged. -/
theorem rerank_missing_cohere_raises (s : Settings)
    (voyageRerank cohereRerank : String → List Snippet → List Snippet)
    (question : String) (snippets : List Snippet) (hne : snippets ≠ [])
    (hvk : pyTruthyOptStr s.voyage_api_key = false) :
    rerank s voyageRerank cohereRerank question snippets =
      .error (.attributeError "cohere_api_key") := by
  unfold rerank
  rw [if_neg hne]
  simp [Settings.attrOptStr, except_bind_ok, except_bind_error, hvk]

/-- Witness for C6: default settings (no Voyage key), one snippet. -/
theorem rerank_missing_cohere_raises_witness :
    rerank {} (fun _ l => l) (fun _ l => l) "q" [{ id := "c1" }] =
      .error (.attributeError "cohere_api_key") :=
  rerank_missing_cohere_raises {} (fun _ l => l) (fun _ l => l) "q"
    [{ id := "c1" }] (by simp) rfl

lemma mem_insertBy {α : Type} {le : α → α → Bool} {x y : α} :
    ∀ {l : List α}, x ∈ insertBy le y l ↔ x = y ∨ x ∈ l := by
  intro l
  induction l with
  | nil => simp [insertBy]
  | cons z zs ih =>
    unfold insertBy
    split
    · simp [ih]
      tauto
    · simp

lemma mem_sortBy_aux {α : Type} {le : α → α → Bool} :
    ∀ (l acc : List α) (x : α),
      x ∈ l.foldl (fun a y => insertBy le y a) acc ↔ x ∈ acc ∨ x ∈ l := by
  intro l
  induction l with
  | nil => simp
  | cons z zs ih =>
    intro acc x
    rw [List.foldl_cons, ih]
    simp [mem_insertBy]
    tauto

lemma mem_sortBy {α : Type} {le : α → α → Bool} {x : α} {l : List α} :
    x ∈ sortBy le l ↔ x ∈ l := by
  unfold sortBy
  rw [mem_sortBy_aux]
  simp

lemma mem_trimBudget (budget : Nat) :
    ∀ (l : List Snippet) (total : Nat) (x : Snippet),
      x ∈ trimBudget budget total l → x ∈ l := by
  intro l
  induction l with
  | nil => intro total x h; simp [trimBudget] at h
  | cons s rest ih =>
    intro total x h
    unfold trimBudget at h
    dsimp only at h
    split at h
    · simp at h
    · rcases List.mem_cons.1 h with h1 | h1
      · exact h1 ▸ List.mem_cons_self _ _
      · exact List.mem_cons_of_mem _ (ih _ x h1)

lemma addNeighbors_mem (s : Snippet) :
    ∀ (rows : List Chunk) (out : List Snippet) (seen : List String)
      (x : Snippet),
      x ∈ (addNeighbors s rows out seen).1 →
      x ∈ out ∨ ∃ c ∈ rows, x = mkNeighbor s c := by
  intro rows
  induction rows with
  | nil => intro out seen x h; exact Or.inl (by simpa [addNeighbors] using h)
  | cons c rest ih =>
    intro out seen x h
    unfold addNeighbors at h
    split at h
    · rcases ih _ _ _ h with h1 | ⟨c', hc', he⟩
      · exact Or.inl h1
      · exact Or.inr ⟨c', List.mem_cons_of_mem _ hc', he⟩
    · rcases ih _ _ _ h with h1 | ⟨c', hc', he⟩
      · rcases List.mem_append.1 h1 with h2 | h2
        · exact Or.inl h2
        · simp at h2
          exact Or.inr ⟨c, List.mem_cons_self _ _, h2⟩
      · exact Or.inr ⟨c', List.mem_cons_of_mem _ hc', he⟩

/-- Every snippet accumulated by the fetch loop keeps an identifier from
`ids`, provided all pending snippets and all reachable window chunks do. -/
lemma expandFetch_mem (db : List Chunk) (left right : Nat)
    (ids : List String) :
    ∀ (pending out : List Snippet) (seen : List String),
      (∀ s ∈ pending, s.id ∈ ids ∧
        ∀ c ∈ db, inWindowB left right s c = true → c.id ∈ ids) →
      (∀ x ∈ out, x.id ∈ ids) →
      ∀ x ∈ expandFetch db left right pending out seen, x.id ∈ ids := by
  intro pending
  induction pending with
  | nil =>
    intro out seen _ hout x hx
    exact hout x (by simpa [expandFetch] using hx)
  | cons s rest ih =>
    intro out seen hpend hout x hx
    have hs := hpend s (List.mem_cons_self _ _)
    have hrest := fun s' h' => hpend s' (List.mem_cons_of_mem _ h')
    have hout1 : ∀ y ∈ out ++ [s], y.id ∈ ids := by
      intro y hy
      rcases List.mem_append.1 hy with hy | hy
      · exact hout y hy
      · simp at hy
        subst hy
        exact hs.1
    unfold expandFetch at hx
    split at hx
    · exact ih _ _ hrest hout x hx
    · split at hx
      · rename_i d base hdoc hseq
        split at hx
        · exact ih _ _ hrest hout1 x hx
        · rename_i hd
          dsimp only at hx
          split at hx
          · exact ih _ _ hrest hout1 x hx
          · have hadd :
                ∀ y ∈ (addNeighbors s
                  (sortBy (fun a b => decide (a.seq ≤ b.seq))
                    (db.filter fun c => decide
                      (c.document_id = d ∧
                        c.seq ∈ neighborSeqs left right base)))
                  (out ++ [s]) (s.id :: seen)).1, y.id ∈ ids := by
              intro y hy
              rcases addNeighbors_mem s _ _ _ y hy with h1 | ⟨c, hc, he⟩
              · exact hout1 y h1
              · rw [mem_sortBy, List.mem_filter] at hc
                obtain ⟨hcdb, hcond⟩ := hc
                subst he
                have hw : inWindowB left right s c = true := by
                  simp only [inWindowB, hdoc, hseq]
                  simp at hcond ⊢
                  tauto
                simpa [mkNeighbor] using hs.2 c hcdb hw
            exact ih _ _ hrest hadd x hx
      · exact ih _ _ hrest hout1 x hx

/-- C9: on an already-maximal window — every chunk in the `(left, right)`
neighbour window of each input snippet already has its identifier among the
input identifiers — `expand_with_neighbors` adds zero new snippets: every
identifier in its output occurs among the input identifiers. -/
theorem expand_with_neighbors_maximal_window (db : List Chunk)
    (snippets : List Snippet) (left right max_chars : Nat)
    (hmax : ∀ s ∈ snippets, ∀ c ∈ db,
      inWindowB left right s c = true → c.id ∈ snippets.map Snippet.id) :
    ∀ x ∈ expand_with_neighbors db snippets left right max_chars,
      x.id ∈ snippets.map Snippet.id := by
  intro x hx
  unfold expand_with_neighbors at hx
  split at hx
  · rename_i hnil
    rw [hnil] at hx
    simp at hx
  · dsimp only at hx
    split at hx
    · exact List.mem_map_of_mem _ hx
    · have hall := expandFetch_mem db left right (snippets.map Snippet.id)
        snippets [] []
        (fun s hs => ⟨List.mem_map_of_mem _ hs,
          fun c hc hw => hmax s hs c hc hw⟩)
        (by simp)
      have hx' : x ∈ sortBy snipKeyLE
          (expandFetch db left right snippets [] []) :=
        mem_trimBudget _ _ _ x hx
      rw [mem_sortBy] at hx'
      exact hall x hx'

/-- Witness for C9: a two-chunk document fully present in the input; the
expansion output only carries the input identifiers. -/
theorem expand_with_neighbors_maximal_window_witness :
    ({ id := "c1", doc := some "d", seq := some 1, text := some "t1",
       neighbor_of := some "c0" } : Snippet).id ∈
      ([{ id := "c0", doc := some "d", seq := some 0, text := some "t0" },
        { id := "c1", doc := some "d", seq := some 1, text := some "t1" }] :
        List Snippet).map Snippet.id :=
  expand_with_neighbors_maximal_window
    [⟨"c0", "d", 0, "t0"⟩, ⟨"c1", "d", 1, "t1"⟩]
    [{ id := "c0", doc := some "d", seq := some 0, text := some "t0" },
     { id := "c1", doc := some "d", seq := some 1, text := some "t1" }]
    1 1 12000 (by decide)
    { id := "c1", doc := some "d", seq := some 1, text := some "t1",
      neighbor_of := some "c0" } (by decide)

lemma except_bind_ok_inv {α β : Type} {x : Except PyErr α}
    {f : α → Except PyErr β} {b : β} (h : x >>= f = .ok b) :
    ∃ a, x = .ok a ∧ f a = .ok b := by
  cases x with
  | error e =>
    rw [except_bind_error] at h
    exact Except.noConfusion h
  | ok a =>
    rw [except_bind_ok] at h
    exact ⟨a, rfl, h⟩

lemma cliRerankStep_false (B : Backends) (snips : List Snippet) :
    cliRerankStep B false snips = pure snips := rfl

lemma apiRerankStep_false (B : Backends) (q : String) (k : Int)
    (snips : List Snippet) :
    apiRerankStep B q k false snips = pure (snips, "vector") := rfl

lemma except_pure_bind {α β : Type} (a : α) (f : α → Except PyErr β) :
    (pure a : Except PyErr α) >>= f = f a := rfl

lemma groundingStep_disabled (B : Backends)
    (hB : B.groundingEnabled = false) (x : ℚ) (n k : Int) :
    groundingStep B x n k = pure [] := by
  unfold groundingStep
  rw [hB]
  rfl

lemma mem_dropWhile_of_neg {p : Char → Bool} {c : Char} :
    ∀ {l : List Char}, c ∈ l → p c = false → c ∈ l.dropWhile p := by
  intro l
  induction l with
  | nil => intro h _; simp at h
  | cons a as ih =>
    intro hc hp
    rw [List.dropWhile_cons]
    split
    · rename_i hpa
      rcases List.mem_cons.1 hc with h | h
      · rw [h] at hp
        rw [hp] at hpa
        exact absurd hpa (by simp)
      · exact ih h hp
    · exact hc

/-- A string containing a non-whitespace character does not strip to
empty. -/
lemma pyStrip_ne_empty {s : String} {c : Char} (hc : c ∈ s.data)
    (hns : pyIsSpace c = false) : pyStrip s ≠ "" := by
  intro h
  have hdata : (pyStrip s).data = [] := by rw [h]
  unfold pyStrip at hdata
  rw [show (String.mk (((s.data.dropWhile pyIsSpace).reverse.dropWhile
    pyIsSpace).reverse)).data = ((s.data.dropWhile pyIsSpace).reverse.dropWhile
    pyIsSpace).reverse from rfl] at hdata
  rw [List.reverse_eq_nil_iff] at hdata
  have h1 : c ∈ s.data.dropWhile pyIsSpace := mem_dropWhile_of_neg hc hns
  have h2 : c ∈ (s.data.dropWhile pyIsSpace).reverse := by simpa using h1
  have h3 := mem_dropWhile_of_neg h2 hns
  rw [hdata] at h3
  simp at h3

/-- C1: for the query issued with `k = 5`, `hybrid = false`, `rerank = false`
against an index holding exactly one chunk (sequence 0) with the text
"Vectorpenter is a local AI fabric for document processing.", both query
surfaces build a Context Pack consisting of exactly the one block
`[#1] <doc>::0` followed by that text, and pass exactly that pack to the
generation call (grounding disabled; the document id fits the local
budget). -/
theorem end_to_end_single_chunk (s : Settings) (ts : Bool)
    (vr : Int → List VecMatch)
    (vf cf : String → List Snippet → List Snippet)
    (mg : Int) (gi : List ExternalResult)
    (q cid d : String) (score : ℚ)
    (hvr : vr 5 = [⟨cid, score⟩])
    (hdlen : d.length ≤ 9000) :
    cmd_ask ⟨s, [⟨cid, d, 0,
        "Vectorpenter is a local AI fabric for document processing."⟩],
      ts, vr, vf, cf, false, mg, gi⟩ q 5 false false =
      .ok ⟨"vector",
        "[#1] " ++ d ++ "::0\n" ++
          "Vectorpenter is a local AI fabric for document processing." ++
          "\n\n",
        .generated q ("[#1] " ++ d ++ "::0\n" ++
          "Vectorpenter is a local AI fabric for document processing." ++
          "\n\n")⟩ ∧
    query ⟨s, [⟨cid, d, 0,
        "Vectorpenter is a local AI fabric for document processing."⟩],
      ts, vr, vf, cf, false, mg, gi⟩ q 5 false false =
      ⟨.generated q ("[#1] " ++ d ++ "::0\n" ++
          "Vectorpenter is a local AI fabric for document processing." ++
          "\n\n"), 5, false, false, "vector", 1⟩ := by
  set T := "Vectorpenter is a local AI fabric for document processing."
    with hT
  set S : Snippet := ⟨cid, score, some T, some d, some 0, none, none, none⟩
    with hSdef
  set PK := "[#1] " ++ d ++ "::0\n" ++ T ++ "\n\n" with hPK
  have hS : hydrate_matches [⟨cid, d, 0, T⟩] [{ id := cid, score := score }] =
      [S] := by
    simp [hydrate_matches, List.find?, hSdef]
  have hblock : snippetBlock 1 S = PK := by
    apply String.ext
    simp [hSdef, hPK, snippetBlock, pyStrOfOptStr, pyStrOfOptInt,
      String.data_append]
    rfl
  have hblen : (snippetBlock 1 S).length = d.length + 69 := by
    rw [hblock, hPK]
    simp only [String.length_append]
    rw [show ("[#1] " : String).length = 5 from rfl,
      show ("::0\n" : String).length = 4 from rfl,
      show ("\n\n" : String).length = 2 from rfl, hT,
      show ("Vectorpenter is a local AI fabric for document processing." :
        String).length = 58 from rfl]
    omega
  have hlocal : build_context [S] 9600 = PK := by
    unfold build_context buildContextList
    rw [if_neg (by omega)]
    show snippetBlock 1 S ++ strJoin (buildContextList 9600 2
      (0 + (snippetBlock 1 S).length) []) = PK
    rw [show buildContextList 9600 2 (0 + (snippetBlock 1 S).length) [] =
      [] from rfl]
    show snippetBlock 1 S ++ "" = PK
    rw [String.append_empty, hblock]
  have hBC : build_combined_context [S] [] 12000 = .ok PK := by
    unfold build_combined_context
    rw [show (8 * 12000 / 10 : Nat) = 9600 from rfl, hlocal]
    rfl
  have hne : pyStrip PK ≠ "" := by
    apply pyStrip_ne_empty (c := '[')
    · rw [hPK]
      simp [String.data_append]
    · rfl
  have hexp : expand_with_neighbors [⟨cid, d, 0, T⟩] [S] 1 1 12000 = [S] := by
    unfold expand_with_neighbors
    rw [if_neg (by simp)]
    dsimp only
    have hout : expandFetch [⟨cid, d, 0, T⟩] 1 1 [S] [] [] = [S] := by
      by_cases hd : d = ""
      · simp [expandFetch, hSdef, hd]
      · simp [expandFetch, hSdef, hd, neighborSeqs, addNeighbors]
    rw [hout]
    rw [if_neg (by simp [expandFaults, hSdef])]
    rw [show sortBy snipKeyLE [S] = [S] from rfl]
    unfold trimBudget
    dsimp only
    rw [if_neg (by simp only [hSdef, hT]; decide)]
    rfl
  constructor
  · unfold cmd_ask
    rw [if_neg (by simp)]
    dsimp only
    rw [show (if (false : Bool) = true then (5 : Int) * 2 else 5) = 5 from
      rfl, hvr]
    rw [show (vector_search [(⟨cid, score⟩ : VecMatch)]).1 =
      [{ id := cid, score := score }] from rfl]
    rw [hS, cliRerankStep_false, except_pure_bind]
    rw [groundingStep_disabled _ rfl, except_pure_bind]
    rw [hBC, except_bind_ok]
    rw [show (if ([] : List ExternalResult) ≠ [] then "+grounding" else "") =
      "" from rfl]
    rw [show cliFinish q ("vector" ++ "") PK = cliFinish q "vector" PK from
      by rw [String.append_empty]]
    unfold cliFinish
    rw [if_pos hne]
    rfl
  · have hinner : queryInner ⟨s, [⟨cid, d, 0, T⟩], ts, vr, vf, cf, false,
        mg, gi⟩ q 5 false false =
        .ok ⟨⟨.generated q PK, 5, false, false, "vector", 1⟩, PK⟩ := by
      unfold queryInner
      rw [if_neg (by simp)]
      dsimp only
      rw [show (if (false : Bool) = true then (5 : Int) * 2 else 5) = 5 from
        rfl, hvr]
      rw [show (vector_search [(⟨cid, score⟩ : VecMatch)]).1 =
        [{ id := cid, score := score }] from rfl]
      rw [hS, apiRerankStep_false]
      simp only [except_pure_bind]
      rw [hexp]
      rw [groundingStep_disabled _ rfl]
      simp only [except_pure_bind]
      rw [hBC]
      simp only [except_bind_ok]
      unfold apiFinish
      rw [if_pos hne]
      rfl
    unfold query
    rw [hinner]

/-- Witness for C1: a concrete one-chunk index with document id `doc.txt`
and the query from the spec scenario. -/
theorem end_to_end_single_chunk_witness :
    cmd_ask ⟨{}, [⟨"c0", "doc.txt", 0,
        "Vectorpenter is a local AI fabric for document processing."⟩],
      false, fun _ => [⟨"c0", 0⟩], fun _ l => l, fun _ l => l, false, 3, []⟩
      "What is Vectorpenter?" 5 false false =
      .ok ⟨"vector",
        "[#1] " ++ "doc.txt" ++ "::0\n" ++
          "Vectorpenter is a local AI fabric for document processing." ++
          "\n\n",
        .generated "What is Vectorpenter?" ("[#1] " ++ "doc.txt" ++
          "::0\n" ++
          "Vectorpenter is a local AI fabric for document processing." ++
          "\n\n")⟩ ∧
    query ⟨{}, [⟨"c0", "doc.txt", 0,
        "Vectorpenter is a local AI fabric for document processing."⟩],
      false, fun _ => [⟨"c0", 0⟩], fun _ l => l, fun _ l => l, false, 3, []⟩
      "What is Vectorpenter?" 5 false false =
      ⟨.generated "What is Vectorpenter?" ("[#1] " ++ "doc.txt" ++
          "::0\n" ++
          "Vectorpenter is a local AI fabric for document processing." ++
          "\n\n"), 5, false, false, "vector", 1⟩ :=
  end_to_end_single_chunk {} false (fun _ => [⟨"c0", 0⟩]) (fun _ l => l)
    (fun _ l => l) 3 [] "What is Vectorpenter?" "c0" "doc.txt" 0 rfl
    (by decide)

/-- C10: with `hybrid=true` while the keyword index reports available, both
query surfaces call `hybrid_search` with the keyword argument `top_k`, which
its signature `(query, query_vec, k)` does not accept, so the invocation
raises `TypeError`; the CLI propagates the exception and the API catch-all
returns its error response with `search_type` `"error"`, so no
hybrid-labeled answer is ever produced. -/
theorem hybrid_toggle_typeerror (B : Backends) (q : String) (k : Int)
    (rerankFlag : Bool) (hts : B.typesenseAvailable = true) :
    cmd_ask B q k true rerankFlag =
      .error (.typeError
        "hybrid_search got an unexpected keyword argument top_k") ∧
    query B q k true rerankFlag =
      { answer := .errorResp (.typeError
          "hybrid_search got an unexpected keyword argument top_k"),
        k := k, hybrid := true, rerank := rerankFlag,
        search_type := "error", sources_count := 0 } := by
  have hinner : queryInner B q k true rerankFlag =
      .error (.typeError
        "hybrid_search got an unexpected keyword argument top_k") := by
    unfold queryInner
    rw [if_pos ⟨rfl, hts⟩]
  constructor
  · unfold cmd_ask
    rw [if_pos ⟨rfl, hts⟩]
  · unfold query
    rw [hinner]

/-- Witness for C10: a concrete backend with the keyword index available. -/
theorem hybrid_toggle_typeerror_witness :
    cmd_ask { witnessBackends with typesenseAvailable := true } "q" 12 true
        false =
      .error (.typeError
        "hybrid_search got an unexpected keyword argument top_k") ∧
    query { witnessBackends with typesenseAvailable := true } "q" 12 true
        false =
      { answer := .errorResp (.typeError
          "hybrid_search got an unexpected keyword argument top_k"),
        k := 12, hybrid := true, rerank := false,
        search_type := "error", sources_count := 0 } :=
  hybrid_toggle_typeerror { witnessBackends with typesenseAvailable := true }
    "q" 12 false rfl

lemma cliFinish_pack (q st pack : String) : (cliFinish q st pack).pack = pack := by
  unfold cliFinish
  split <;> rfl

lemma cliFinish_empty (q st pack : String) (h : pyStrip pack = "") :
    (cliFinish q st pack).ans = .noContextCli := by
  unfold cliFinish
  rw [if_neg (by simp [h])]

lemma apiFinish_pack (q : String) (k : Int) (hybrid rerankFlag : Bool)
    (st1 : String) (snippets : List Snippet)
    (external : List ExternalResult) (pack : String) :
    (apiFinish q k hybrid rerankFlag st1 snippets external pack).pack =
      pack := rfl

lemma apiFinish_empty (q : String) (k : Int) (hybrid rerankFlag : Bool)
    (st1 : String) (snippets : List Snippet)
    (external : List ExternalResult) (pack : String)
    (h : pyStrip pack = "") :
    (apiFinish q k hybrid rerankFlag st1 snippets
      external pack).resp.answer = .noContextApi := by
  simp [apiFinish, h]

lemma pure_eq_ok {α : Type} (a : α) :
    (pure a : Except PyErr α) = .ok a := rfl

lemma ok_of_pure_eq {α : Type} {a b : α}
    (h : (pure a : Except PyErr α) = .ok b) : a = b := by
  rwa [pure_eq_ok, Except.ok.injEq] at h

/-- C7: whenever a query surface run completes with an empty or
whitespace-only Context Pack, the answer is the fixed explanatory message
and the generation call is not invoked (the `AnswerVal.generated`
constructor, which carries the pack handed to generation, is not
produced). -/
theorem empty_pack_fixed_message (B : Backends) (q : String) (k : Int)
    (hybrid rerankFlag : Bool) :
    (∀ r, cmd_ask B q k hybrid rerankFlag = .ok r →
      pyStrip r.pack = "" → r.ans = .noContextCli) ∧
    (∀ r, queryInner B q k hybrid rerankFlag = .ok r →
      pyStrip r.pack = "" → r.resp.answer = .noContextApi) := by
  constructor
  · intro r hr hempty
    unfold cmd_ask at hr
    split at hr
    · exact Except.noConfusion hr
    · dsimp only at hr
      obtain ⟨sn, -, hr⟩ := except_bind_ok_inv hr
      obtain ⟨ex, -, hr⟩ := except_bind_ok_inv hr
      obtain ⟨pk, -, hr⟩ := except_bind_ok_inv hr
      have hfin := ok_of_pure_eq hr
      subst hfin
      rw [cliFinish_pack] at hempty
      exact cliFinish_empty _ _ _ hempty
  · intro r hr hempty
    unfold queryInner at hr
    split at hr
    · exact Except.noConfusion hr
    · dsimp only at hr
      obtain ⟨rr, -, hr⟩ := except_bind_ok_inv hr
      obtain ⟨ex, -, hr⟩ := except_bind_ok_inv hr
      obtain ⟨pk, -, hr⟩ := except_bind_ok_inv hr
      have hfin := ok_of_pure_eq hr
      subst hfin
      rw [apiFinish_pack] at hempty
      exact apiFinish_empty _ _ _ _ _ _ _ _ hempty

/-- Witness for C7: the empty index yields an empty pack; both surfaces
return their fixed no-context message. -/
theorem empty_pack_fixed_message_witness :
    ((⟨"vector", "", AnswerVal.noContextCli⟩ : CliResult).ans =
      AnswerVal.noContextCli) ∧
    ((⟨⟨AnswerVal.noContextApi, 5, false, false, "vector", 0⟩, ""⟩ :
      ApiSuccess).resp.answer = AnswerVal.noContextApi) :=
  ⟨(empty_pack_fixed_message witnessBackends "q" 5 false false).1
      ⟨"vector", "", AnswerVal.noContextCli⟩ (by rfl) (by rfl),
   (empty_pack_fixed_message witnessBackends "q" 5 false false).2
      ⟨⟨AnswerVal.noContextApi, 5, false, false, "vector", 0⟩, ""⟩
      (by rfl) (by rfl)⟩

end Vectorpenter
